import Mathlib

/-!
# Verification of the per-user quota and concurrency-control layer

Shallow embedding of the quota manager, store backends, per-user lock
registry and generation orchestrator of `src/main.py`
(beverly-tryon-server), together with proofs of the specified
properties.

Conventions of the embedding:
* Python `int` values are modelled as `Int` (counters may in principle
  go negative, which is exactly what some claims are about);
* the Redis store is modelled as a map from key strings to integer
  values plus a map recording the TTL set by `EXPIRE` (`INCR` on an
  absent key yields `1`, `DECR` on an absent key yields `-1`, as in
  Redis);
* the in-process fallback (`_mem_counts` / `_mem_datestr`) is a map
  from key strings to integers plus an optional current-day marker;
* `datetime.now(tz).strftime("%Y%m%d")` is abstracted by passing the
  resolved day string `datestr` explicitly to each operation (the
  Python functions compute it at call time via `_today_str`); the
  clock itself is modelled as local seconds since epoch in a
  fixed-offset zone (the default `Europe/Minsk` has no DST).
-/

/-- Result of a consume attempt, `(allowed, remaining, used_today)` as
returned by `consume_daily_quota`. -/
structure QuotaDecision where
  allowed : Bool
  remaining : Int
  used : Int
  deriving DecidableEq, Repr

/-- The key string `f"tryon:daily:{user_id}:{datestr}"`. -/
def quotaKey (user : Nat) (datestr : String) : String :=
  "tryon:daily:" ++ toString user ++ ":" ++ datestr

/-- State of the in-process fallback backend: `_mem_counts` (a dict
from key to count) and `_mem_datestr` (the recorded current-day
marker, `None` before first use). -/
structure MemState where
  counts : String → Option Int
  datestr : Option String

/-- The fresh in-process state at process start: empty dict, no day
marker. -/
def memInit : MemState := { counts := fun _ => none, datestr := none }

/-- `consume_daily_quota` (lines 139-154 of `src/main.py`), in-process
branch (`r is None`): clear the whole map when the day marker differs
from the resolved day, then increment unconditionally and report
`(used <= DAILY_LIMIT, max(0, DAILY_LIMIT - used), used)`. -/
def consumeMem (L : Int) (user : Nat) (datestr : String) (st : MemState) :
    QuotaDecision × MemState :=
  let key := quotaKey user datestr
  let st1 := if st.datestr ≠ some datestr then
      { counts := fun _ => none, datestr := some datestr }
    else st
  let used := (st1.counts key).getD 0 + 1
  ({ allowed := decide (used ≤ L), remaining := max 0 (L - used), used := used },
   { counts := fun k => if k = key then some used else st1.counts k,
     datestr := st1.datestr })

/-- `refund_daily_quota` (lines 163-172 of `src/main.py`), in-process
branch: decrement only when the key is present with a positive value
(`if key in _mem_counts and _mem_counts[key] > 0`). -/
def refundMem (user : Nat) (datestr : String) (st : MemState) : MemState :=
  let key := quotaKey user datestr
  match st.counts key with
  | some v =>
      if v > 0 then
        { st with counts := fun k => if k = key then some (v - 1) else st.counts k }
      else st
  | none => st

/-- State of the shared Redis store: stored integer values and the TTL
recorded by `EXPIRE` for each key. -/
structure RedisState where
  values : String → Option Int
  expiry : String → Option Int

/-- An empty Redis store. -/
def redisInit : RedisState := { values := fun _ => none, expiry := fun _ => none }

/-- Redis `INCR`: an absent key counts as `0`; returns the new value. -/
def redisIncr (key : String) (st : RedisState) : Int × RedisState :=
  let v := (st.values key).getD 0 + 1
  (v, { st with values := fun k => if k = key then some v else st.values k })

/-- Redis `DECR`: an absent key counts as `0`; returns the new value
(which is `-1` when the key was absent — Redis does not clamp). -/
def redisDecr (key : String) (st : RedisState) : Int × RedisState :=
  let v := (st.values key).getD 0 - 1
  (v, { st with values := fun k => if k = key then some v else st.values k })

/-- `_seconds_until_end_of_day` (lines 132-137 of `src/main.py`):
seconds from now until the next local midnight, at least 1.  Time is
local seconds since epoch in a fixed-offset zone (no DST), so a day is
86400 seconds. -/
def secondsUntilEndOfDay (nowSec : Nat) : Int :=
  max 1 (86400 - ((nowSec : Int) % 86400))

/-- `_today_str` (line 129-130): the resolved DayKey; two instants get
the same key iff they lie in the same local calendar day. -/
def todayStr (nowSec : Nat) : String :=
  toString (nowSec / 86400)

/-- `consume_daily_quota` (lines 139-143, 156-161 of `src/main.py`),
Redis branch: `INCR` the day key unconditionally; on the first
increment set its expiry to `_seconds_until_end_of_day()`; report
`(used <= DAILY_LIMIT, max(0, DAILY_LIMIT - used), used)`. -/
def consumeRedis (L : Int) (user : Nat) (datestr : String) (nowSec : Nat)
    (st : RedisState) : QuotaDecision × RedisState :=
  let key := quotaKey user datestr
  let (used, st1) := redisIncr key st
  let st2 := if used = 1 then
      { st1 with expiry := fun k => if k = key then some (secondsUntilEndOfDay nowSec) else st1.expiry k }
    else st1
  ({ allowed := decide (used ≤ L), remaining := max 0 (L - used), used := used }, st2)

/-- `refund_daily_quota` (lines 163-167, 174-177 of `src/main.py`),
Redis branch: a bare `r.decr(key)` with no clamp (exceptions are
swallowed, leaving the store unchanged; this models the normal,
non-raising execution). -/
def refundRedis (user : Nat) (datestr : String) (st : RedisState) : RedisState :=
  (redisDecr (quotaKey user datestr) st).2

/-- `n` successive `consume_daily_quota` calls for the same user and
day on the in-process backend, starting from `st`. -/
def consumeSteps (L : Int) (user : Nat) (datestr : String) : Nat → MemState → MemState
  | 0, st => st
  | n + 1, st => (consumeMem L user datestr (consumeSteps L user datestr n st)).2

/-- `n` successive `consume_daily_quota` calls for the same user and
day on the Redis backend, starting from `st`. -/
def redisSteps (L : Int) (user : Nat) (datestr : String) (nowSec : Nat) :
    Nat → RedisState → RedisState
  | 0, st => st
  | n + 1, st => (consumeRedis L user datestr nowSec (redisSteps L user datestr nowSec n st)).2

/-- A quota-manager operation: one `consume_daily_quota` or one
`refund_daily_quota` call, with the user and resolved day of that
call. -/
inductive QuotaOp where
  | consumeOp (user : Nat) (datestr : String)
  | refundOp (user : Nat) (datestr : String)

/-- Apply one quota operation to the in-process backend state. -/
def applyMemOp (L : Int) (op : QuotaOp) (st : MemState) : MemState :=
  match op with
  | .consumeOp u d => (consumeMem L u d st).2
  | .refundOp u d => refundMem u d st

/-- Apply a sequence of quota operations to the in-process backend
state, oldest first. -/
def applyMemOps (L : Int) (ops : List QuotaOp) (st : MemState) : MemState :=
  ops.foldl (fun s o => applyMemOp L o s) st

/-- Every count stored by the in-process backend is non-negative. -/
def MemNonneg (st : MemState) : Prop :=
  ∀ k v, st.counts k = some v → 0 ≤ v

/-- A concrete in-process state of a user who exhausted the default
allowance of 4 on day `20260101` (used in witnesses). -/
def memStateFour : MemState :=
  { counts := fun k => if k = quotaKey 7 "20260101" then some 4 else none,
    datestr := some "20260101" }

/-!
## Backend selection (`_get_redis`, lines 100-116)

The global `_redis_client` is modelled as `Option Unit` (`none` both
before the first attempt and after a failure — the source uses the
same `None` sentinel for both).  `hasUrl` is whether `REDIS_URL` is
non-empty; `connectOk` is whether `redis.Redis.from_url(...).ping()`
succeeds on this particular call.  The result is the returned client,
the new value of `_redis_client`, and whether this call attempted a
connection to the shared store. -/
def getRedis (hasUrl : Bool) (connectOk : Bool) (client : Option Unit) :
    Option Unit × Option Unit × Bool :=
  match client with
  | some c => (some c, some c, false)
  | none =>
      if hasUrl = false then (none, none, false)
      else if connectOk then (some (), some (), true)
      else (none, none, true)

/-!
## Generation orchestrator (`on_callback`, print branch, lines 500-624)

Functional model of one `requestGeneration` execution.  The external
Gemini call is an opaque `Except String α` (raising is `.error`).  The
flags record whether the external call was invoked, whether a refund
was issued, and whether the per-user `async with lock` block was
entered and exited (Python's `async with` releases the lock on every
exit path, including exceptions, which is reflected by `lockExited`
being set on both branches). -/

inductive Outcome (α : Type) where
  | delivered (payload : α) (remaining : Int) (limit : Int)
  | denied (usedShown : Int) (limit : Int)
  | failed (err : String)
  deriving DecidableEq, Repr

structure RunResult (α : Type) where
  outcome : Outcome α
  quota : MemState
  geminiCalled : Bool
  refunded : Bool
  lockEntered : Bool
  lockExited : Bool

/-- The sequencing of `on_callback` after the print selection is
validated: consume quota (line 515); if denied, reply with
`min(used_today, DAILY_LIMIT)` out of `DAILY_LIMIT` and stop (lines
516-525); otherwise acquire the user's lock, run the generation, and
on any exception refund and surface the error (lines 542-622).
Quota state is the in-process backend. -/
def handleGenerationRequest {α : Type} (L : Int) (user : Nat) (datestr : String)
    (genResult : Except String α) (st : MemState) : RunResult α :=
  let c := consumeMem L user datestr st
  if c.1.allowed then
    match genResult with
    | .ok payload =>
        { outcome := .delivered payload c.1.remaining L, quota := c.2,
          geminiCalled := true, refunded := false,
          lockEntered := true, lockExited := true }
    | .error e =>
        { outcome := .failed e, quota := refundMem user datestr c.2,
          geminiCalled := true, refunded := true,
          lockEntered := true, lockExited := true }
  else
    { outcome := .denied (min c.1.used L) L, quota := c.2,
      geminiCalled := false, refunded := false,
      lockEntered := false, lockExited := false }

/-- The atomic actions of one `on_callback` generation request, in
program order. -/
inductive OrchAction where
  | consumeQuota
  | denyReply
  | acquireLock
  | generate
  | sendResult
  | refund
  | notifyError
  | releaseLock
  deriving DecidableEq, Repr

/-- The sequence of actions `on_callback` performs for a generation
request, as written in the source: `consume_daily_quota` at line 515;
denied reply at lines 516-525; `async with lock` at lines 542-543;
the executor call to `gemini_tryon_sync` at lines 545-555; result
delivery at lines 583-606; on exception `refund_daily_quota` at line
609 then the error message at lines 618-621; the lock is released
when the `async with` block exits. -/
def requestTrace (allowed : Bool) (genOk : Bool) : List OrchAction :=
  if allowed then
    [.consumeQuota, .acquireLock, .generate]
      ++ (if genOk then [.sendResult] else [.refund, .notifyError])
      ++ [.releaseLock]
  else
    [.consumeQuota, .denyReply]

/-!
## Two concurrent requests for one user (`USER_LOCKS`, line 63)

Interleaving model of two concurrent `on_callback` generation
requests for the same user.  Each request moves through the program
points of the print branch; the shared `asyncio.Lock` for that user is
`holder` (`none` = free).  `Pc.entry → Pc.waiting` is the consume step
with an allowed decision, `Pc.entry → Pc.done` a denied decision
(both outside the lock, as in the source); acquiring the lock
(`await lock.__aenter__`) is enabled only when the lock is free;
`Pc.generating` is the executor call to `gemini_tryon_sync`;
`Pc.generating → Pc.finishing` covers both a normal return and a
raised exception (the handling, including any refund, happens inside
the `async with` body); `Pc.finishing → Pc.done` is the guaranteed
lock release when the `async with` block exits. -/
inductive Pc where
  | entry
  | waiting
  | locked
  | generating
  | finishing
  | done
  deriving DecidableEq, Repr

instance : Fintype Pc where
  elems := {.entry, .waiting, .locked, .generating, .finishing, .done}
  complete := by intro x; cases x <;> decide

/-- Joint state of the two requests and the user's lock
(`holder = some false` means request 0 holds it). -/
structure SysState where
  pc0 : Pc
  pc1 : Pc
  holder : Option Bool
  deriving DecidableEq, Repr

/-- Successor local states of one request (`me` identifies it for
lock ownership). -/
def procStep (me : Bool) (pc : Pc) (holder : Option Bool) : List (Pc × Option Bool) :=
  match pc with
  | .entry => [(.waiting, holder), (.done, holder)]
  | .waiting => if holder = none then [(.locked, some me)] else []
  | .locked => [(.generating, holder)]
  | .generating => [(.finishing, holder)]
  | .finishing => [(.done, none)]
  | .done => []

/-- All successor system states: either request may take its next
enabled step. -/
def sysSteps (s : SysState) : List SysState :=
  ((procStep false s.pc0 s.holder).map fun ph =>
    { pc0 := ph.1, pc1 := s.pc1, holder := ph.2 })
  ++ ((procStep true s.pc1 s.holder).map fun ph =>
    { pc0 := s.pc0, pc1 := ph.1, holder := ph.2 })

/-- Both requests at their entry point, lock free. -/
def sysInit : SysState := { pc0 := .entry, pc1 := .entry, holder := none }

/-- Program points at which a request is inside its `async with lock`
block. -/
def inLockRegion : Pc → Bool
  | .locked => true
  | .generating => true
  | .finishing => true
  | _ => false

/-- Lock-ownership invariant: a request is inside the `async with`
block iff it holds the user's lock. -/
def sysInv (s : SysState) : Bool :=
  (inLockRegion s.pc0 = decide (s.holder = some false))
  ∧ (inLockRegion s.pc1 = decide (s.holder = some true))

/-- States reachable from `sysInit` by interleaving the two
requests. -/
inductive Reach : SysState → Prop where
  | init : Reach sysInit
  | step {s s' : SysState} : Reach s → s' ∈ sysSteps s → Reach s'

-- Evaluation lemmas for `consumeMem`, split by the day-marker test.

lemma consumeMem_used_same (L : Int) (u : Nat) (d : String) (st : MemState)
    (h : st.datestr = some d) :
    (consumeMem L u d st).1.used = (st.counts (quotaKey u d)).getD 0 + 1 := by
  simp [consumeMem, h]

lemma consumeMem_allowed_same (L : Int) (u : Nat) (d : String) (st : MemState)
    (h : st.datestr = some d) :
    (consumeMem L u d st).1.allowed
      = decide ((st.counts (quotaKey u d)).getD 0 + 1 ≤ L) := by
  simp [consumeMem, h]

lemma consumeMem_remaining_same (L : Int) (u : Nat) (d : String) (st : MemState)
    (h : st.datestr = some d) :
    (consumeMem L u d st).1.remaining
      = max 0 (L - ((st.counts (quotaKey u d)).getD 0 + 1)) := by
  simp [consumeMem, h]

lemma consumeMem_counts_same (L : Int) (u : Nat) (d : String) (st : MemState)
    (h : st.datestr = some d) :
    (consumeMem L u d st).2.counts (quotaKey u d)
      = some ((st.counts (quotaKey u d)).getD 0 + 1) := by
  simp [consumeMem, h]

lemma consumeMem_datestr_same (L : Int) (u : Nat) (d : String) (st : MemState)
    (h : st.datestr = some d) :
    (consumeMem L u d st).2.datestr = some d := by
  simp [consumeMem, h]

lemma consumeMem_used_newday (L : Int) (u : Nat) (d : String) (st : MemState)
    (h : st.datestr ≠ some d) :
    (consumeMem L u d st).1.used = 1 := by
  simp [consumeMem, h]

lemma consumeMem_counts_newday (L : Int) (u : Nat) (d : String) (st : MemState)
    (h : st.datestr ≠ some d) :
    (consumeMem L u d st).2.counts
      = fun k => if k = quotaKey u d then some 1 else none := by
  simp [consumeMem, h]

lemma consumeMem_datestr_newday (L : Int) (u : Nat) (d : String) (st : MemState)
    (h : st.datestr ≠ some d) :
    (consumeMem L u d st).2.datestr = some d := by
  simp [consumeMem, h]

/-- After `n ≥ 1` same-day consume calls from the fresh in-process
state, the day marker is set and the counter holds `n`; at `n = 0`
both are still empty. -/
lemma consumeSteps_state (L : Int) (u : Nat) (d : String) : ∀ n : Nat,
    (consumeSteps L u d n memInit).datestr = (if n = 0 then none else some d)
    ∧ (consumeSteps L u d n memInit).counts (quotaKey u d)
        = (if n = 0 then none else some (n : Int)) := by
  intro n
  induction n with
  | zero => exact ⟨rfl, rfl⟩
  | succ m ih =>
    obtain ⟨ihd, ihc⟩ := ih
    by_cases hm : m = 0
    · subst hm
      have hne : memInit.datestr ≠ some d := by simp [memInit]
      constructor
      · simpa [consumeSteps] using consumeMem_datestr_newday L u d memInit hne
      · have h2 := consumeMem_counts_newday L u d memInit hne
        simp only [consumeSteps]
        rw [h2]
        simp
    · simp only [if_neg hm] at ihd ihc
      have h1 := consumeMem_datestr_same L u d _ ihd
      have h2 := consumeMem_counts_same L u d _ ihd
      rw [ihc] at h2
      constructor
      · simpa [consumeSteps] using h1
      · simp only [consumeSteps, h2, ihc]
        simp [Nat.succ_ne_zero]

-- Evaluation lemmas for the Redis backend.

lemma consumeRedis_used (L : Int) (u : Nat) (d : String) (now : Nat) (st : RedisState) :
    (consumeRedis L u d now st).1.used = (st.values (quotaKey u d)).getD 0 + 1 := by
  simp [consumeRedis, redisIncr]

lemma consumeRedis_allowed (L : Int) (u : Nat) (d : String) (now : Nat) (st : RedisState) :
    (consumeRedis L u d now st).1.allowed
      = decide ((st.values (quotaKey u d)).getD 0 + 1 ≤ L) := by
  simp [consumeRedis, redisIncr]

lemma consumeRedis_remaining (L : Int) (u : Nat) (d : String) (now : Nat) (st : RedisState) :
    (consumeRedis L u d now st).1.remaining
      = max 0 (L - ((st.values (quotaKey u d)).getD 0 + 1)) := by
  simp [consumeRedis, redisIncr]

lemma consumeRedis_values (L : Int) (u : Nat) (d : String) (now : Nat) (st : RedisState) :
    (consumeRedis L u d now st).2.values (quotaKey u d)
      = some ((st.values (quotaKey u d)).getD 0 + 1) := by
  simp only [consumeRedis, redisIncr]
  by_cases h : (st.values (quotaKey u d)).getD 0 + 1 = 1 <;> simp [h]

/-- After `n` consume calls from the empty Redis store, the day key
holds `n` (for `n ≥ 1`). -/
lemma redisSteps_values (L : Int) (u : Nat) (d : String) (now : Nat) : ∀ n : Nat,
    (redisSteps L u d now n redisInit).values (quotaKey u d)
      = (if n = 0 then none else some (n : Int)) := by
  intro n
  induction n with
  | zero => rfl
  | succ m ih =>
    have h := consumeRedis_values L u d now (redisSteps L u d now m redisInit)
    rw [ih] at h
    by_cases hm : m = 0
    · subst hm
      simpa [redisSteps] using h
    · simp only [if_neg hm] at h
      simp only [redisSteps, h, Nat.succ_ne_zero, if_neg]
      simp

-- The decision fields are definitionally tied to `used` in both
-- backends (the tuple is built from `used` before any branching).

lemma consumeMem_allowed_eq (L : Int) (u : Nat) (d : String) (st : MemState) :
    (consumeMem L u d st).1.allowed = decide ((consumeMem L u d st).1.used ≤ L) := rfl

lemma consumeMem_remaining_eq (L : Int) (u : Nat) (d : String) (st : MemState) :
    (consumeMem L u d st).1.remaining = max 0 (L - (consumeMem L u d st).1.used) := rfl

lemma consumeRedis_allowed_eq (L : Int) (u : Nat) (d : String) (now : Nat) (st : RedisState) :
    (consumeRedis L u d now st).1.allowed
      = decide ((consumeRedis L u d now st).1.used ≤ L) := rfl

lemma consumeRedis_remaining_eq (L : Int) (u : Nat) (d : String) (now : Nat) (st : RedisState) :
    (consumeRedis L u d now st).1.remaining
      = max 0 (L - (consumeRedis L u d now st).1.used) := rfl

lemma consumeSteps_succ_used (L : Int) (u : Nat) (d : String) (n : Nat) :
    (consumeMem L u d (consumeSteps L u d n memInit)).1.used = (n : Int) + 1 := by
  obtain ⟨hd, hc⟩ := consumeSteps_state L u d n
  by_cases hn : n = 0
  · subst hn
    have hne : (consumeSteps L u d 0 memInit).datestr ≠ some d := by rw [hd]; simp
    rw [consumeMem_used_newday L u d _ hne]
    simp
  · rw [if_neg hn] at hd hc
    rw [consumeMem_used_same L u d _ hd, hc]
    rfl

lemma consumeSteps_succ_counts (L : Int) (u : Nat) (d : String) (n : Nat) :
    (consumeMem L u d (consumeSteps L u d n memInit)).2.counts (quotaKey u d)
      = some ((n : Int) + 1) := by
  obtain ⟨hd, hc⟩ := consumeSteps_state L u d n
  by_cases hn : n = 0
  · subst hn
    have hne : (consumeSteps L u d 0 memInit).datestr ≠ some d := by rw [hd]; simp
    rw [consumeMem_counts_newday L u d _ hne]
    simp
  · rw [if_neg hn] at hd hc
    rw [consumeMem_counts_same L u d _ hd, hc]
    rfl

lemma redisSteps_succ_used (L : Int) (u : Nat) (d : String) (now : Nat) (n : Nat) :
    (consumeRedis L u d now (redisSteps L u d now n redisInit)).1.used = (n : Int) + 1 := by
  rw [consumeRedis_used, redisSteps_values]
  by_cases hn : n = 0
  · subst hn; simp
  · rw [if_neg hn]; rfl

lemma redisSteps_succ_values (L : Int) (u : Nat) (d : String) (now : Nat) (n : Nat) :
    (consumeRedis L u d now (redisSteps L u d now n redisInit)).2.values (quotaKey u d)
      = some ((n : Int) + 1) := by
  rw [consumeRedis_values, redisSteps_values]
  by_cases hn : n = 0
  · subst hn; simp
  · rw [if_neg hn]; rfl

lemma sysInv_init : sysInv sysInit := by decide

lemma sysInv_step : ∀ p0 p1 : Pc, ∀ h : Option Bool,
    sysInv ⟨p0, p1, h⟩ → ∀ s' ∈ sysSteps ⟨p0, p1, h⟩, sysInv s' := by decide

lemma reach_sysInv : ∀ s : SysState, Reach s → sysInv s := by
  intro s hs
  induction hs with
  | init => exact sysInv_init
  | step hr hm ih =>
      rename_i t t'
      exact sysInv_step t.pc0 t.pc1 t.holder ih t' hm

lemma sysSteps_acquire : ∀ p0 p1 : Pc, ∀ h : Option Bool,
    sysInv ⟨p0, p1, h⟩ → ∀ s' ∈ sysSteps ⟨p0, p1, h⟩,
      p1 = .waiting → s'.pc1 = .locked → inLockRegion p0 = false := by decide

-- Further evaluation lemmas used by the per-claim theorems.

lemma consumeMem_counts_key (L : Int) (u : Nat) (d : String) (st : MemState) :
    (consumeMem L u d st).2.counts (quotaKey u d)
      = some ((consumeMem L u d st).1.used) := by
  by_cases h : st.datestr = some d
  · rw [consumeMem_counts_same L u d st h, consumeMem_used_same L u d st h]
  · rw [consumeMem_counts_newday L u d st h, consumeMem_used_newday L u d st h]
    simp

lemma consumeMem_datestr_all (L : Int) (u : Nat) (d : String) (st : MemState) :
    (consumeMem L u d st).2.datestr = some d := by
  by_cases h : st.datestr = some d
  · exact consumeMem_datestr_same L u d st h
  · exact consumeMem_datestr_newday L u d st h

lemma consumeMem_counts_same_at (L : Int) (u : Nat) (d : String) (st : MemState)
    (h : st.datestr = some d) (k : String) :
    (consumeMem L u d st).2.counts k
      = if k = quotaKey u d
          then some ((st.counts (quotaKey u d)).getD 0 + 1) else st.counts k := by
  simp [consumeMem, h]

lemma consumeMem_counts_newday_at (L : Int) (u : Nat) (d : String) (st : MemState)
    (h : st.datestr ≠ some d) (k : String) :
    (consumeMem L u d st).2.counts k
      = if k = quotaKey u d then some 1 else none := by
  rw [consumeMem_counts_newday L u d st h]

lemma refundMem_datestr (u : Nat) (d : String) (st : MemState) :
    (refundMem u d st).datestr = st.datestr := by
  simp only [refundMem]
  rcases hv : st.counts (quotaKey u d) with _ | v <;> simp only [hv]
  by_cases hp : v > 0 <;> simp [hp]

lemma refundMem_counts_pos (u : Nat) (d : String) (st : MemState) (v : Int)
    (hv : st.counts (quotaKey u d) = some v) (hp : 0 < v) :
    (refundMem u d st).counts (quotaKey u d) = some (v - 1) := by
  simp only [refundMem, hv]
  simp [hp]

lemma refundRedis_values (u : Nat) (d : String) (st : RedisState) :
    (refundRedis u d st).values (quotaKey u d)
      = some ((st.values (quotaKey u d)).getD 0 - 1) := by
  simp [refundRedis, redisDecr]

lemma consumeMem_nonneg (L : Int) (u : Nat) (d : String) (st : MemState)
    (h : MemNonneg st) : MemNonneg (consumeMem L u d st).2 := by
  intro k v hk
  by_cases hday : st.datestr = some d
  · rw [consumeMem_counts_same_at L u d st hday k] at hk
    by_cases hkk : k = quotaKey u d
    · rw [if_pos hkk] at hk
      rcases hc : st.counts (quotaKey u d) with _ | w
      · rw [hc] at hk
        simp at hk
        omega
      · rw [hc] at hk
        have hw := h _ _ hc
        simp at hk
        omega
    · rw [if_neg hkk] at hk
      exact h _ _ hk
  · rw [consumeMem_counts_newday_at L u d st hday k] at hk
    by_cases hkk : k = quotaKey u d
    · rw [if_pos hkk] at hk
      simp at hk
      omega
    · rw [if_neg hkk] at hk
      cases hk

lemma refundMem_nonneg (u : Nat) (d : String) (st : MemState)
    (h : MemNonneg st) : MemNonneg (refundMem u d st) := by
  intro k v hk
  simp only [refundMem] at hk
  rcases hc : st.counts (quotaKey u d) with _ | w <;> simp only [hc] at hk
  · exact h _ _ hk
  · by_cases hp : w > 0
    · rw [if_pos hp] at hk
      by_cases hkk : k = quotaKey u d
      · simp only [hkk, if_pos] at hk
        have := h _ _ hc
        simp at hk
        omega
      · simp only [if_neg hkk] at hk
        exact h _ _ hk
    · rw [if_neg hp] at hk
      exact h _ _ hk

lemma applyMemOps_nonneg (L : Int) (ops : List QuotaOp) (st : MemState)
    (h : MemNonneg st) : MemNonneg (applyMemOps L ops st) := by
  induction ops generalizing st with
  | nil => exact h
  | cons o rest ih =>
      cases o with
      | consumeOp u d =>
          exact ih ((consumeMem L u d st).2) (consumeMem_nonneg L u d st h)
      | refundOp u d =>
          exact ih (refundMem u d st) (refundMem_nonneg u d st h)

/-!
## Per-claim theorems
-/

/-- C1: for a single (user, day) pair with allowance `L`, and any
sequence of consume calls for that pair with no refunds interleaved,
the Nth call (here `N = n + 1`) returns `allowed = (N ≤ L)`,
`used = N` and `remaining = max(0, L − N)`, on both backends; the
stored counter is incremented unconditionally to `N` even when the
call is denied. -/
theorem consume_nth_call_spec (L : Int) (u : Nat) (d : String) (now : Nat) (n : Nat) :
    ((consumeMem L u d (consumeSteps L u d n memInit)).1.used = (n : Int) + 1
      ∧ (consumeMem L u d (consumeSteps L u d n memInit)).1.allowed
          = decide ((n : Int) + 1 ≤ L)
      ∧ (consumeMem L u d (consumeSteps L u d n memInit)).1.remaining
          = max 0 (L - ((n : Int) + 1))
      ∧ (consumeMem L u d (consumeSteps L u d n memInit)).2.counts (quotaKey u d)
          = some ((n : Int) + 1))
    ∧ ((consumeRedis L u d now (redisSteps L u d now n redisInit)).1.used = (n : Int) + 1
      ∧ (consumeRedis L u d now (redisSteps L u d now n redisInit)).1.allowed
          = decide ((n : Int) + 1 ≤ L)
      ∧ (consumeRedis L u d now (redisSteps L u d now n redisInit)).1.remaining
          = max 0 (L - ((n : Int) + 1))
      ∧ (consumeRedis L u d now (redisSteps L u d now n redisInit)).2.values (quotaKey u d)
          = some ((n : Int) + 1)) := by
  refine ⟨⟨consumeSteps_succ_used L u d n, ?_, ?_, consumeSteps_succ_counts L u d n⟩,
          ⟨redisSteps_succ_used L u d now n, ?_, ?_, redisSteps_succ_values L u d now n⟩⟩
  · rw [consumeMem_allowed_eq, consumeSteps_succ_used]
  · rw [consumeMem_remaining_eq, consumeSteps_succ_used]
  · rw [consumeRedis_allowed_eq, redisSteps_succ_used]
  · rw [consumeRedis_remaining_eq, redisSteps_succ_used]

/-- C2 counterexample: in the action trace of an allowed generation
request, `consume_daily_quota` (line 515, trace index 0) happens
strictly before the per-user lock acquisition (line 543, trace index
1) — the lock is not acquired before `consume` is called. -/
theorem lock_before_consume_false :
    ¬ (requestTrace true true).indexOf OrchAction.acquireLock
        < (requestTrace true true).indexOf OrchAction.consumeQuota := by decide

/-- C2 (amended): for every generation request, `consume(user)` runs
before the per-user lock is acquired (the lock protects only the
generation and its result handling); the lock is released last, after
the outcome — delivery, or refund plus error report — has been fully
handled; a denied request never acquires the lock.  Consume calls for
the same user are therefore not serialized by the lock. -/
theorem consume_precedes_lock (g : Bool) :
    (requestTrace true g).indexOf OrchAction.consumeQuota
        < (requestTrace true g).indexOf OrchAction.acquireLock
    ∧ (requestTrace true g).getLast? = some OrchAction.releaseLock
    ∧ OrchAction.acquireLock ∉ requestTrace false g
    ∧ (requestTrace true false).indexOf OrchAction.refund
        < (requestTrace true false).indexOf OrchAction.releaseLock
    ∧ (requestTrace true true).indexOf OrchAction.sendResult
        < (requestTrace true true).indexOf OrchAction.releaseLock := by
  cases g <;> decide

lemma sysInv_facts : ∀ p0 p1 : Pc, ∀ h : Option Bool, sysInv ⟨p0, p1, h⟩ →
    (¬ (p0 = Pc.generating ∧ p1 = Pc.generating))
    ∧ (p0 = Pc.done → h ≠ some false)
    ∧ (p1 = Pc.done → h ≠ some true) := by decide

/-- C3: two concurrent generation requests for the same user are never
both in the GENERATING state; a finished request no longer holds the
lock (release happens on every exit path, the exception path
included); and the second request's lock acquisition can only succeed
while the first is not inside its locked sequence. -/
theorem generation_mutual_exclusion (s s' : SysState)
    (hr : Reach s) (hm : s' ∈ sysSteps s) :
    (¬ (s.pc0 = Pc.generating ∧ s.pc1 = Pc.generating))
    ∧ (s.pc0 = Pc.done → s.holder ≠ some false)
    ∧ (s.pc1 = Pc.done → s.holder ≠ some true)
    ∧ (s.pc1 = Pc.waiting → s'.pc1 = Pc.locked → inLockRegion s.pc0 = false) := by
  have hi := reach_sysInv s hr
  obtain ⟨a, b, c⟩ := sysInv_facts s.pc0 s.pc1 s.holder hi
  exact ⟨a, b, c, fun hw hl => sysSteps_acquire s.pc0 s.pc1 s.holder hi s' hm hw hl⟩

/-- C3 witness: the mutual-exclusion theorem applied to the reachable
state in which request 1 has consumed quota and is about to acquire
the free lock, and to its acquisition step. -/
theorem generation_mutual_exclusion_witness :
    (¬ ((Pc.entry : Pc) = Pc.generating ∧ (Pc.waiting : Pc) = Pc.generating))
    ∧ ((Pc.entry : Pc) = Pc.done → (none : Option Bool) ≠ some false)
    ∧ ((Pc.waiting : Pc) = Pc.done → (none : Option Bool) ≠ some true)
    ∧ ((Pc.waiting : Pc) = Pc.waiting → (Pc.locked : Pc) = Pc.locked
        → inLockRegion Pc.entry = false) := by
  have h1 : Reach { pc0 := Pc.entry, pc1 := Pc.waiting, holder := none } :=
    Reach.step Reach.init (by decide)
  exact generation_mutual_exclusion
    { pc0 := Pc.entry, pc1 := Pc.waiting, holder := none }
    { pc0 := Pc.entry, pc1 := Pc.locked, holder := some true }
    h1 (by decide)

/-- C4 counterexample: on the Redis backend the claim fails — a refund
for a (user, day) whose key is absent (count 0) stores `-1`, because
`refund_daily_quota` issues a bare `DECR` with no clamp. -/
theorem redis_decrement_unclamped :
    (refundRedis 7 "20260101" redisInit).values (quotaKey 7 "20260101") = some (-1)
    ∧ ((-1 : Int) < 0) := by decide

/-- C4 (amended): on the in-process backend the stored counter never
becomes negative under any sequence of consume and refund operations
(its refund is clamped: it only decrements a present, positive
count); the shared-store backend's decrement is not clamped and can
store values below zero. -/
theorem memCounter_never_negative (L : Int) (ops : List QuotaOp) (st : MemState)
    (h : MemNonneg st) : MemNonneg (applyMemOps L ops st) :=
  applyMemOps_nonneg L ops st h

/-- C4 witness: the non-negativity invariant evaluated on a concrete
operation sequence with more refunds than consumed units. -/
theorem memCounter_never_negative_witness :
    MemNonneg (applyMemOps 4
      [QuotaOp.consumeOp 7 "20260101", QuotaOp.refundOp 7 "20260101",
       QuotaOp.refundOp 7 "20260101", QuotaOp.consumeOp 7 "20260102"] memInit) :=
  memCounter_never_negative 4 _ memInit (fun _ _ hk => by simp [memInit] at hk)

/-- C5 counterexample: after a failed attempt to reach the shared
store (`getRedis true false none`), the next quota operation attempts
the connection again, and when the store has recovered it is used —
the fallback is not permanent and further connection attempts are
made. -/
theorem fallback_not_latched :
    (getRedis true true ((getRedis true false none).2.1)).2.2 = true
    ∧ (getRedis true true ((getRedis true false none).2.1)).1 = some () := by decide

/-- C5 (amended): a failed attempt to reach the shared store makes the
current operation fall back in-process but is not remembered (the
cached client stays `None`), so every subsequent operation with a
store URL configured attempts the connection again and resumes using
the shared store if it succeeds; only when no store URL is configured
is the shared store never contacted, and a cached client is reused
without a new attempt. -/
theorem fallback_retry_each_call (ok : Bool) :
    (getRedis true false none).2.1 = none
    ∧ (getRedis true false none).1 = none
    ∧ (getRedis true ok none).2.2 = true
    ∧ (getRedis false ok none).2.2 = false
    ∧ (getRedis false ok none).1 = none
    ∧ (getRedis true true none).1 = some ()
    ∧ (getRedis true ok (some ())).2.2 = false := by
  cases ok <;> decide

/-- C6: when `consume_daily_quota` reports `allowed = false`, the
request terminates in the denied outcome — showing `min(used_today,
DAILY_LIMIT)` out of `DAILY_LIMIT` — the external generation call is
never invoked, no refund is issued, the quota state is exactly the
post-consume state, and the decision's `remaining` is `0`. -/
theorem denied_request_terminal {α : Type} (L : Int) (u : Nat) (d : String)
    (gen : Except String α) (st : MemState)
    (h : (consumeMem L u d st).1.allowed = false) :
    (handleGenerationRequest L u d gen st).outcome
        = Outcome.denied (min (consumeMem L u d st).1.used L) L
    ∧ (handleGenerationRequest L u d gen st).geminiCalled = false
    ∧ (handleGenerationRequest L u d gen st).refunded = false
    ∧ (handleGenerationRequest L u d gen st).quota = (consumeMem L u d st).2
    ∧ (consumeMem L u d st).1.remaining = 0 := by
  have hlt : L < (consumeMem L u d st).1.used := by
    have he := consumeMem_allowed_eq L u d st
    rw [h] at he
    have := of_decide_eq_false he.symm
    omega
  refine ⟨?_, ?_, ?_, ?_, ?_⟩
  · simp [handleGenerationRequest, h]
  · simp [handleGenerationRequest, h]
  · simp [handleGenerationRequest, h]
  · simp [handleGenerationRequest, h]
  · rw [consumeMem_remaining_eq]
    apply max_eq_left
    omega

/-- C6 witness: the fifth attempt of a user who already used the whole
default allowance of 4 is denied without touching the generation
call. -/
theorem denied_request_terminal_witness :
    (handleGenerationRequest 4 7 "20260101" (Except.ok (0 : Nat)) memStateFour).outcome
        = Outcome.denied (min (consumeMem 4 7 "20260101" memStateFour).1.used 4) 4
    ∧ (handleGenerationRequest 4 7 "20260101" (Except.ok (0 : Nat)) memStateFour).geminiCalled = false
    ∧ (handleGenerationRequest 4 7 "20260101" (Except.ok (0 : Nat)) memStateFour).refunded = false
    ∧ (handleGenerationRequest 4 7 "20260101" (Except.ok (0 : Nat)) memStateFour).quota
        = (consumeMem 4 7 "20260101" memStateFour).2
    ∧ (consumeMem 4 7 "20260101" memStateFour).1.remaining = 0 :=
  denied_request_terminal 4 7 "20260101" (Except.ok 0) memStateFour (by decide)

/-- C7: if the external generation call raises after an allowed
consume, the request refunds the user's quota unit, surfaces the error
as a failed outcome, invokes the external call exactly where the lock
is held, and the lock block is entered and exited (released). -/
theorem failed_generation_refunded {α : Type} (L : Int) (u : Nat) (d : String)
    (e : String) (st : MemState)
    (h : (consumeMem L u d st).1.allowed = true) :
    (handleGenerationRequest L u d (Except.error e : Except String α) st).outcome
        = Outcome.failed e
    ∧ (handleGenerationRequest L u d (Except.error e : Except String α) st).refunded = true
    ∧ (handleGenerationRequest L u d (Except.error e : Except String α) st).quota
        = refundMem u d (consumeMem L u d st).2
    ∧ (handleGenerationRequest L u d (Except.error e : Except String α) st).geminiCalled = true
    ∧ (handleGenerationRequest L u d (Except.error e : Except String α) st).lockEntered = true
    ∧ (handleGenerationRequest L u d (Except.error e : Except String α) st).lockExited = true := by
  refine ⟨?_, ?_, ?_, ?_, ?_, ?_⟩ <;> simp [handleGenerationRequest, h]

/-- C7 witness: a first allowed attempt whose generation raises (with
the error text `gemini_tryon_sync` itself can produce) is refunded and
reported as failed. -/
theorem failed_generation_refunded_witness :
    (handleGenerationRequest 4 7 "20260101"
        (Except.error "Gemini returned no image data" : Except String Nat) memInit).outcome
        = Outcome.failed "Gemini returned no image data"
    ∧ (handleGenerationRequest 4 7 "20260101"
        (Except.error "Gemini returned no image data" : Except String Nat) memInit).refunded = true
    ∧ (handleGenerationRequest 4 7 "20260101"
        (Except.error "Gemini returned no image data" : Except String Nat) memInit).quota
        = refundMem 7 "20260101" (consumeMem 4 7 "20260101" memInit).2
    ∧ (handleGenerationRequest 4 7 "20260101"
        (Except.error "Gemini returned no image data" : Except String Nat) memInit).geminiCalled = true
    ∧ (handleGenerationRequest 4 7 "20260101"
        (Except.error "Gemini returned no image data" : Except String Nat) memInit).lockEntered = true
    ∧ (handleGenerationRequest 4 7 "20260101"
        (Except.error "Gemini returned no image data" : Except String Nat) memInit).lockExited = true :=
  failed_generation_refunded 4 7 "20260101" "Gemini returned no image data" memInit (by decide)

/-- C8: for a (user, day) whose counter is positive because a consume
just charged it, a refund followed immediately by a consume for the
same (user, day) returns the same `used` value as that preceding
consume — as if the refunded call never happened — on both
backends. -/
theorem refund_then_consume_used (L : Int) (u : Nat) (d : String) (now : Nat)
    (st : MemState) (rst : RedisState)
    (hpos : 0 < (consumeMem L u d st).1.used) :
    (consumeMem L u d (refundMem u d (consumeMem L u d st).2)).1.used
        = (consumeMem L u d st).1.used
    ∧ (consumeRedis L u d now (refundRedis u d (consumeRedis L u d now rst).2)).1.used
        = (consumeRedis L u d now rst).1.used := by
  constructor
  · have hkey := consumeMem_counts_key L u d st
    have hday := consumeMem_datestr_all L u d st
    have hrd : (refundMem u d (consumeMem L u d st).2).datestr = some d := by
      rw [refundMem_datestr]; exact hday
    have hrc : (refundMem u d (consumeMem L u d st).2).counts (quotaKey u d)
        = some ((consumeMem L u d st).1.used - 1) :=
      refundMem_counts_pos u d _ _ hkey hpos
    rw [consumeMem_used_same L u d _ hrd, hrc]
    simp
  · have h1 := consumeRedis_values L u d now rst
    have h2 := refundRedis_values u d (consumeRedis L u d now rst).2
    rw [h1] at h2
    simp only [Option.getD_some] at h2
    rw [consumeRedis_used, h2, consumeRedis_used]
    simp

/-- C8 witness: consume, refund, consume from the fresh state returns
`used = 1` twice on both backends. -/
theorem refund_then_consume_used_witness :
    ((consumeMem 4 7 "20260101" (refundMem 7 "20260101" (consumeMem 4 7 "20260101" memInit).2)).1.used
        = (consumeMem 4 7 "20260101" memInit).1.used)
    ∧ ((consumeRedis 4 7 "20260101" 3600 (refundRedis 7 "20260101" (consumeRedis 4 7 "20260101" 3600 redisInit).2)).1.used
        = (consumeRedis 4 7 "20260101" 3600 redisInit).1.used) :=
  refund_then_consume_used 4 7 "20260101" 3600 memInit redisInit (by decide)

/-- C9: the first consume of a new local calendar day reports
`used = 1` whatever the previous day's counter was: the in-process
backend clears the whole map when the resolved day differs from its
marker (the new day's key maps to 1 and every other key is gone), and
the Redis backend starts a fresh day key at 1 and sets its expiry to
`_seconds_until_end_of_day()` on that first increment. -/
theorem day_rollover_fresh (L : Int) (u : Nat) (d : String) (now : Nat)
    (st : MemState) (rst : RedisState) (k : String)
    (hmem : st.datestr ≠ some d)
    (hredis : rst.values (quotaKey u d) = none)
    (hk : k ≠ quotaKey u d) :
    (consumeMem L u d st).1.used = 1
    ∧ (consumeMem L u d st).2.counts (quotaKey u d) = some 1
    ∧ (consumeMem L u d st).2.counts k = none
    ∧ (consumeRedis L u d now rst).1.used = 1
    ∧ (consumeRedis L u d now rst).2.expiry (quotaKey u d)
        = some (secondsUntilEndOfDay now) := by
  refine ⟨consumeMem_used_newday L u d st hmem, ?_, ?_, ?_, ?_⟩
  · rw [consumeMem_counts_newday_at L u d st hmem]
    simp
  · rw [consumeMem_counts_newday_at L u d st hmem]
    simp [hk]
  · rw [consumeRedis_used, hredis]
    rfl
  · simp [consumeRedis, redisIncr, hredis]

/-- C9 witness: a user with 4 units consumed on `20260101` gets a
fresh `used = 1` on the first call of `20260102`, the old key is
cleared in the in-process map, and the Redis day key receives its
end-of-day expiry. -/
theorem day_rollover_fresh_witness :
    (consumeMem 4 7 "20260102" memStateFour).1.used = 1
    ∧ (consumeMem 4 7 "20260102" memStateFour).2.counts (quotaKey 7 "20260102") = some 1
    ∧ (consumeMem 4 7 "20260102" memStateFour).2.counts (quotaKey 7 "20260101") = none
    ∧ (consumeRedis 4 7 "20260102" 86400 redisInit).1.used = 1
    ∧ (consumeRedis 4 7 "20260102" 86400 redisInit).2.expiry (quotaKey 7 "20260102")
        = some (secondsUntilEndOfDay 86400) :=
  day_rollover_fresh 4 7 "20260102" 86400 memStateFour redisInit (quotaKey 7 "20260101")
    (by decide) rfl (by decide)

/-- C10: in the denied outcome the displayed used count is
`min(used_today, DAILY_LIMIT)`, which never exceeds the limit, while
the internal counter stores the uncapped `used` value, strictly above
the limit. -/
theorem denied_display_cap {α : Type} (L : Int) (u : Nat) (d : String)
    (gen : Except String α) (st : MemState)
    (h : (consumeMem L u d st).1.allowed = false) :
    (handleGenerationRequest L u d gen st).outcome
        = Outcome.denied (min (consumeMem L u d st).1.used L) L
    ∧ min (consumeMem L u d st).1.used L ≤ L
    ∧ L < (consumeMem L u d st).1.used
    ∧ (handleGenerationRequest L u d gen st).quota.counts (quotaKey u d)
        = some ((consumeMem L u d st).1.used) := by
  have hlt : L < (consumeMem L u d st).1.used := by
    have he := consumeMem_allowed_eq L u d st
    rw [h] at he
    have := of_decide_eq_false he.symm
    omega
  refine ⟨?_, min_le_right _ _, hlt, ?_⟩
  · simp [handleGenerationRequest, h]
  · have hq : (handleGenerationRequest L u d gen st).quota = (consumeMem L u d st).2 := by
      simp [handleGenerationRequest, h]
    rw [hq]
    exact consumeMem_counts_key L u d st

/-- C10 witness: on the denied fifth attempt the user sees `4/4` while
the stored counter is 5. -/
theorem denied_display_cap_witness :
    (handleGenerationRequest 4 7 "20260101" (Except.error "e" : Except String Nat) memStateFour).outcome
        = Outcome.denied (min (consumeMem 4 7 "20260101" memStateFour).1.used 4) 4
    ∧ min (consumeMem 4 7 "20260101" memStateFour).1.used 4 ≤ 4
    ∧ (4 : Int) < (consumeMem 4 7 "20260101" memStateFour).1.used
    ∧ (handleGenerationRequest 4 7 "20260101" (Except.error "e" : Except String Nat) memStateFour).quota.counts (quotaKey 7 "20260101")
        = some ((consumeMem 4 7 "20260101" memStateFour).1.used) :=
  denied_display_cap 4 7 "20260101" (Except.error "e") memStateFour (by decide)
